import Mathlib

/-!
Shallow embedding of src/main.rs of the Rusty chat client.

The embedding covers the parts of the program the specification talks
about: the JSON values exchanged with the two HTTP endpoints, the Brave
search client (request parameters and result formatting), the Groq
transport client (system-turn injection, request construction, the
rate-limit retry loop, response decoding), the conversation store, and
the orchestration loop of `process_message`.

Network effects are modelled by oracles: a list of `HttpOutcome` values
(one per completion attempt), a list of `SearchOutcome` values (one per
executed search), and a list of `EnvStep` values (one per iteration of
the orchestration loop).  Rust `panic!` is modelled by a distinguished
`fatal` outcome, and a `?`-propagated error by a distinguished
`escalated` outcome.
-/

/-- JSON values, modelling serde_json::Value on the subset this program
exchanges (numbers are restricted to integers; the program never
inspects a numeric field). -/
inductive Json where
  | null
  | bool (b : Bool)
  | num (n : Int)
  | str (s : String)
  | arr (elems : List Json)
  | obj (fields : List (String × Json))

/-- serde_json::Value::get on an object key: `none` on a non-object or a
missing key. -/
def Json.get : Json → String → Option Json
  | .obj fields, key => (fields.find? (fun p => p.1 == key)).map (fun p => p.2)
  | _, _ => none

/-- serde_json::Value::as_str. -/
def Json.asStr : Json → Option String
  | .str s => some s
  | _ => none

/-- serde_json::Value::as_array. -/
def Json.asArray : Json → Option (List Json)
  | .arr elems => some elems
  | _ => none

/-- Whitespace skipping of the JSON grammar. -/
def skipWs : List Char → List Char
  | [] => []
  | c :: rest =>
      if c = ' ' ∨ c = '\n' ∨ c = '\t' ∨ c = '\r' then skipWs rest else c :: rest

/-- JSON string escapes handled by the embedded parser (the subset the
program ever receives; unsupported escapes make the parse fail, as a
malformed document would). -/
def escChar (c : Char) : Option Char :=
  if c = '"' then some '"'
  else if c = '\\' then some '\\'
  else if c = '/' then some '/'
  else if c = 'n' then some '\n'
  else if c = 't' then some '\t'
  else if c = 'r' then some '\r'
  else none

/-- Body of a JSON string literal, after the opening quote. -/
def parseStringLit : List Char → Option (String × List Char)
  | [] => none
  | '"' :: rest => some ("", rest)
  | '\\' :: e :: rest =>
      match escChar e with
      | none => none
      | some c =>
          match parseStringLit rest with
          | none => none
          | some (s, r) => some (String.singleton c ++ s, r)
  | c :: rest =>
      match parseStringLit rest with
      | none => none
      | some (s, r) => some (String.singleton c ++ s, r)

/-- Digit run with accumulator. -/
def takeDigits : List Char → Nat → Nat × List Char
  | [], acc => (acc, [])
  | c :: rest, acc =>
      if c.isDigit then takeDigits rest (acc * 10 + (c.toNat - 48)) else (acc, c :: rest)

/-- Integer JSON numbers. -/
def parseNum : List Char → Option (Json × List Char)
  | '-' :: c :: rest =>
      if c.isDigit then
        let p := takeDigits rest (c.toNat - 48)
        some (Json.num (-(Int.ofNat p.1)), p.2)
      else none
  | c :: rest =>
      if c.isDigit then
        let p := takeDigits rest (c.toNat - 48)
        some (Json.num (Int.ofNat p.1), p.2)
      else none
  | [] => none

mutual

/-- Recursive-descent JSON value, fuelled (fuel bounds the number of
nested values; `parseJson` supplies enough for any input it is given). -/
def parseValue : Nat → List Char → Option (Json × List Char)
  | 0, _ => none
  | Nat.succ fuel, cs =>
      match skipWs cs with
      | 'n' :: 'u' :: 'l' :: 'l' :: rest => some (Json.null, rest)
      | 't' :: 'r' :: 'u' :: 'e' :: rest => some (Json.bool true, rest)
      | 'f' :: 'a' :: 'l' :: 's' :: 'e' :: rest => some (Json.bool false, rest)
      | '"' :: rest =>
          match parseStringLit rest with
          | none => none
          | some (s, r) => some (Json.str s, r)
      | '[' :: rest =>
          match skipWs rest with
          | ']' :: rest2 => some (Json.arr [], rest2)
          | other => parseElems fuel other
      | '{' :: rest =>
          match skipWs rest with
          | '}' :: rest2 => some (Json.obj [], rest2)
          | other => parseFields fuel other
      | other => parseNum other

/-- Comma-separated array elements, up to the closing bracket. -/
def parseElems : Nat → List Char → Option (Json × List Char)
  | 0, _ => none
  | Nat.succ fuel, cs =>
      match parseValue fuel cs with
      | none => none
      | some (v, rest) =>
          match skipWs rest with
          | ',' :: rest2 =>
              match parseElems fuel (skipWs rest2) with
              | some (Json.arr vs, rest3) => some (Json.arr (v :: vs), rest3)
              | _ => none
          | ']' :: rest2 => some (Json.arr [v], rest2)
          | _ => none

/-- Comma-separated object fields, up to the closing brace. -/
def parseFields : Nat → List Char → Option (Json × List Char)
  | 0, _ => none
  | Nat.succ fuel, cs =>
      match skipWs cs with
      | '"' :: rest =>
          match parseStringLit rest with
          | none => none
          | some (k, rest1) =>
              match skipWs rest1 with
              | ':' :: rest2 =>
                  match parseValue fuel (skipWs rest2) with
                  | none => none
                  | some (v, rest3) =>
                      match skipWs rest3 with
                      | ',' :: rest4 =>
                          match parseFields fuel (skipWs rest4) with
                          | some (Json.obj fs, rest5) => some (Json.obj ((k, v) :: fs), rest5)
                          | _ => none
                      | '}' :: rest4 => some (Json.obj [(k, v)], rest4)
                      | _ => none
              | _ => none
      | _ => none

end

/-- serde_json::from_str into a Value: parse a whole document, rejecting
trailing garbage. -/
def parseJson (s : String) : Option Json :=
  match parseValue (s.length + 1) s.data with
  | some (v, rest) => if (skipWs rest).isEmpty then some v else none
  | none => none

/-- FunctionCall of src/main.rs: the name and raw JSON argument string of
a tool invocation. -/
structure FunctionCall where
  name : String
  arguments : String
deriving DecidableEq

/-- ToolCall of src/main.rs. -/
structure ToolCall where
  id : String
  type : String
  function : FunctionCall
deriving DecidableEq

/-- Message of src/main.rs: one conversational turn on the wire and in
the store. -/
structure Message where
  role : String
  content : Option String
  tool_calls : Option (List ToolCall)
  tool_call_id : Option String
deriving DecidableEq

/-- Message::new. -/
def Message.new (role : String) (content : String) : Message :=
  ⟨role, some content, none, none⟩

/-- Message::user. -/
def Message.user (content : String) : Message :=
  Message.new "user" content

/-- Message::assistant. -/
def Message.assistant (content : String) : Message :=
  Message.new "assistant" content

/-- Message::system. -/
def Message.system (content : String) : Message :=
  Message.new "system" content

/-- Message::tool. -/
def Message.tool (content : String) (id : String) : Message :=
  ⟨"tool", some content, none, some id⟩

/-- ToolFunction of src/main.rs (declaration side). -/
structure ToolFunction where
  name : String
  description : String
  parameters : Json

/-- ToolDefinition of src/main.rs. -/
structure ToolDefinition where
  type : String
  function : ToolFunction

/-- ChatRequest of src/main.rs: the wire request body. -/
structure ChatRequest where
  model : String
  messages : List Message
  stream : Bool
  tools : Option (List ToolDefinition)

/-- Choice of src/main.rs. -/
structure Choice where
  message : Message
deriving DecidableEq

/-- ChatResponse of src/main.rs. -/
structure ChatResponse where
  choices : List Choice
deriving DecidableEq

/-- serde decoding of an optional string field: a missing field or a
JSON null decodes to `none`, a string to `some`, anything else is a
decode error. -/
def decodeStrOpt : Option Json → Option (Option String)
  | none => some none
  | some Json.null => some none
  | some (Json.str s) => some (some s)
  | some _ => none

/-- serde decoding of FunctionCall (both fields required strings). -/
def decodeFunctionCall (j : Json) : Option FunctionCall := do
  let name ← (j.get "name").bind Json.asStr
  let arguments ← (j.get "arguments").bind Json.asStr
  pure ⟨name, arguments⟩

/-- serde decoding of ToolCall. -/
def decodeToolCall (j : Json) : Option ToolCall := do
  let id ← (j.get "id").bind Json.asStr
  let ty ← (j.get "type").bind Json.asStr
  let fnJson ← j.get "function"
  let fn ← decodeFunctionCall fnJson
  pure ⟨id, ty, fn⟩

/-- serde decoding of the optional tool_calls list. -/
def decodeToolCallsOpt : Option Json → Option (Option (List ToolCall))
  | none => some none
  | some Json.null => some none
  | some (Json.arr elems) => (elems.mapM decodeToolCall).map (fun tcs => some tcs)
  | some _ => none

/-- serde decoding of Message. -/
def decodeMessage (j : Json) : Option Message := do
  let role ← (j.get "role").bind Json.asStr
  let content ← decodeStrOpt (j.get "content")
  let toolCalls ← decodeToolCallsOpt (j.get "tool_calls")
  let toolCallId ← decodeStrOpt (j.get "tool_call_id")
  pure ⟨role, content, toolCalls, toolCallId⟩

/-- serde decoding of Choice. -/
def decodeChoice (j : Json) : Option Choice := do
  let m ← j.get "message"
  let msg ← decodeMessage m
  pure ⟨msg⟩

/-- serde decoding of ChatResponse. -/
def decodeChatResponse (j : Json) : Option ChatResponse := do
  let cs ← (j.get "choices").bind Json.asArray
  let choices ← cs.mapM decodeChoice
  pure ⟨choices⟩

/-- serde_json::from_str::<ChatResponse>: parse then shape-check. -/
def decodeBody (s : String) : Option ChatResponse :=
  (parseJson s).bind decodeChatResponse

/-- Query parameters BraveSearchClient::search attaches to its GET
request (src/main.rs line 236): the query and the fixed page size. -/
def searchRequestParams (query : String) : List (String × String) :=
  [("q", query), ("count", "5")]

/-- One formatted entry of BraveSearchClient::format_results. -/
def resultEntry (i : Nat) (result : Json) : String :=
  let title := ((result.get "title").bind Json.asStr).getD "No Title"
  let description := ((result.get "description").bind Json.asStr).getD ""
  let url := ((result.get "url").bind Json.asStr).getD ""
  toString (i + 1) ++ ". **" ++ title ++ "**\n" ++
    "   - Snippet: " ++ description ++ "\n" ++
    "   - URL: " ++ url ++ "\n\n"

/-- The json.web.results path read by format_results. -/
def resultsOf (json : Json) : Option (List Json) :=
  ((json.get "web").bind (fun w => Json.get w "results")).bind Json.asArray

/-- BraveSearchClient::format_results (src/main.rs lines 244-276). -/
def format_results (json : Json) : String :=
  let header := "### Brave Search Results\n\n"
  match resultsOf json with
  | some web =>
      if web.isEmpty then header ++ "No results found.\n"
      else header ++ String.join ((web.enum.take 5).map (fun p => resultEntry p.1 p.2))
  | none => header ++ "Failed to parse search results.\n"

/-- Outcome of one search-provider HTTP exchange: a JSON body, or a
network failure (reqwest::Error) at any stage. -/
inductive SearchOutcome where
  | response (json : Json)
  | netErr

/-- BraveSearchClient::search (src/main.rs lines 229-242): the request
parameters sent, and the formatted result or the propagated network
error. -/
def search (query : String) (outcome : SearchOutcome) :
    List (String × String) × Except Unit String :=
  (searchRequestParams query,
    match outcome with
    | .response json => Except.ok (format_results json)
    | .netErr => Except.error ())

/-- The system turn injected by GroqApiClient::chat_completion_non_stream
ahead of the caller-supplied messages on every call (src/main.rs line
311). -/
def systemMessage : Message :=
  Message.system "You are a helpful AI assistant with access to real-time information via the `brave_search` tool. You can use it to find up-to-date information. Do not attempt to use any tools that are not listed here. Specifically, do NOT use a tool named `open` or `read_file`; they do not exist."

/-- The wire request built by chat_completion_non_stream (src/main.rs
lines 310-319): system turn first, caller turns after, stream always
false. -/
def buildChatRequest (model : String) (messages : List Message)
    (tools : Option (List ToolDefinition)) : ChatRequest :=
  ⟨model, systemMessage :: messages, false, tools⟩

/-- Outcome of one completion-endpoint HTTP attempt.  `sendFail` is a
reqwest error from send(); `status429` is a rate-limit status (textOk
tells whether reading the body text succeeds, which the code does only
in the exhausted branch); `ok` is any other status with its body text
(textOk tells whether reading the body text succeeds). -/
inductive HttpOutcome where
  | sendFail
  | status429 (textOk : Bool)
  | ok (textOk : Bool) (body : String)

/-- How one chat_completion_non_stream call ends: a decoded reply
(return Ok), a propagated reqwest error (return Err, recoverable), or a
panic (process terminates). -/
inductive TransportResult where
  | reply (m : Message)
  | transportErr
  | fatal
deriving DecidableEq

/-- Observable effects of one chat_completion_non_stream call: its
result, how many backoff sleeps it performed and how many HTTP attempts
it made. -/
structure RunStats where
  result : TransportResult
  sleeps : Nat
  attempts : Nat
deriving DecidableEq

/-- The reply extraction of src/main.rs lines 356-360: first choice's
message, or an empty assistant message when the choices list is empty. -/
def replyOf (r : ChatResponse) : Message :=
  match r.choices with
  | [] => Message.assistant ""
  | c :: _ => c.message

/-- The Duration::from_secs(2) backoff constant of src/main.rs line 343,
in seconds. -/
def backoff_secs : Nat := 2

/-- The retry loop of chat_completion_non_stream (src/main.rs lines
321-361), driven by one HttpOutcome per attempt.  The `[]` case is an
artifact of the oracle running dry; every theorem supplies enough
outcomes. -/
def chatLoop : Nat → List HttpOutcome → RunStats
  | _, [] => ⟨TransportResult.transportErr, 0, 0⟩
  | retries, outcome :: rest =>
      match outcome with
      | .sendFail => ⟨TransportResult.transportErr, 0, 1⟩
      | .status429 textOk =>
          if 3 ≤ retries then
            ⟨if textOk then TransportResult.fatal else TransportResult.transportErr, 0, 1⟩
          else
            let r := chatLoop (retries + 1) rest
            ⟨r.result, r.sleeps + 1, r.attempts + 1⟩
      | .ok textOk body =>
          if textOk then
            match decodeBody body with
            | none => ⟨TransportResult.fatal, 0, 1⟩
            | some resp => ⟨TransportResult.reply (replyOf resp), 0, 1⟩
          else ⟨TransportResult.transportErr, 0, 1⟩

/-- GroqApiClient::chat_completion_non_stream (src/main.rs lines
304-362): the request it sends (identical on every retry, built once
before the loop) and the observable run of its retry loop. -/
def chat_completion_non_stream (model : String) (messages : List Message)
    (tools : Option (List ToolDefinition)) (net : List HttpOutcome) :
    ChatRequest × RunStats :=
  (buildChatRequest model messages tools, chatLoop 0 net)

/-- GroqApiClient::chat_completion (src/main.rs lines 294-302): always
delegates to the non-stream path. -/
def chat_completion (model : String) (messages : List Message)
    (tools : Option (List ToolDefinition)) (net : List HttpOutcome) :
    ChatRequest × RunStats :=
  chat_completion_non_stream model messages tools net

/-- ConversationManager of src/main.rs. -/
structure ConversationManager where
  messages : List Message
  stream_mode : Bool
deriving DecidableEq

/-- ConversationManager::new. -/
def ConversationManager.new : ConversationManager :=
  ⟨[], false⟩

/-- ConversationManager::add_user_message. -/
def add_user_message (cm : ConversationManager) (content : String) : ConversationManager :=
  { cm with messages := cm.messages ++ [Message.user content] }

/-- ConversationManager::remove_last_message (Vec::pop). -/
def remove_last_message (cm : ConversationManager) : ConversationManager :=
  { cm with messages := cm.messages.dropLast }

/-- ConversationManager::clear. -/
def clear (cm : ConversationManager) : ConversationManager :=
  { cm with messages := [] }

/-- ConversationManager::toggle_stream_mode. -/
def toggle_stream_mode (cm : ConversationManager) : ConversationManager :=
  { cm with stream_mode := !cm.stream_mode }

/-- ChatApplication::get_brave_search_tool (src/main.rs lines 1274-1292). -/
def get_brave_search_tool : ToolDefinition :=
  ⟨"function",
    ⟨"brave_search",
      "Search the web for up-to-date information, news, current events, and general knowledge. Use this for questions that require real-time data or when you need to verify facts.",
      Json.obj
        [("type", Json.str "object"),
         ("properties",
           Json.obj
             [("query",
               Json.obj
                 [("type", Json.str "string"),
                  ("description", Json.str "The search query to look up on the web.")])]),
         ("required", Json.arr [Json.str "query"])]⟩⟩

/-- ChatApplication::get_open_tool (src/main.rs lines 1294-1312). -/
def get_open_tool : ToolDefinition :=
  ⟨"function",
    ⟨"open",
      "Open a URL to read its content.",
      Json.obj
        [("type", Json.str "object"),
         ("properties",
           Json.obj
             [("id",
               Json.obj
                 [("type", Json.str "string"),
                  ("description", Json.str "The URL or ID of the resource to open.")])]),
         ("required", Json.arr [Json.str "id"])]⟩⟩

/-- What one chat_completion call looks like from process_message:
Ok(message) or Err(reqwest error).  The panic outcomes of the transport
client never return control, so they do not appear here. -/
inductive CallResult where
  | ok (m : Message)
  | err

/-- Environment of one iteration of process_message's loop: the
transport result of its chat_completion call and the search-provider
outcomes its tool executions consume, in order. -/
structure EnvStep where
  transport : CallResult
  searches : List SearchOutcome

/-- How the per-assistant-turn tool-execution pass ends: all requests
processed, or a serde_json::from_str error propagated by the `?`
operator (which aborts process_message), or the search oracle running
dry (an artifact; every theorem supplies enough outcomes). -/
inductive ToolsResult where
  | ok (cm : ConversationManager)
  | escalate (cm : ConversationManager)
  | exhausted (cm : ConversationManager)

/-- The fixed failure text pushed when a brave_search execution fails
(src/main.rs line 1213). -/
def toolErrSearch : String := "Error: Search failed. Please answer without search."

/-- The fixed failure text pushed when an open execution fails
(src/main.rs line 1246). -/
def toolErrOpen : String := "Error: Failed to read page content. Please try searching instead."

/-- The for-loop over tool_calls of process_message (src/main.rs lines
1186-1252): brave_search and open both parse their raw argument string
(propagating a parse error via `?`), extract the query, run the search,
and push exactly one tool turn; any other tool name is skipped with no
turn pushed. -/
def runToolCalls : ConversationManager → List ToolCall → List SearchOutcome → ToolsResult
  | cm, [], _ => ToolsResult.ok cm
  | cm, tc :: rest, searches =>
      if tc.function.name = "brave_search" then
        match parseJson tc.function.arguments with
        | none => ToolsResult.escalate cm
        | some args =>
            let query := ((args.get "query").bind Json.asStr).getD ""
            match searches with
            | [] => ToolsResult.exhausted cm
            | s :: srest =>
                match (search query s).2 with
                | Except.ok results =>
                    runToolCalls
                      { cm with messages := cm.messages ++ [Message.tool results tc.id] }
                      rest srest
                | Except.error _ =>
                    runToolCalls
                      { cm with messages := cm.messages ++ [Message.tool toolErrSearch tc.id] }
                      rest srest
      else if tc.function.name = "open" then
        match parseJson tc.function.arguments with
        | none => ToolsResult.escalate cm
        | some args =>
            let url := (((args.get "id").orElse (fun _ => args.get "url")).bind Json.asStr).getD ""
            match searches with
            | [] => ToolsResult.exhausted cm
            | s :: srest =>
                match (search url s).2 with
                | Except.ok results =>
                    runToolCalls
                      { cm with messages := cm.messages ++ [Message.tool results tc.id] }
                      rest srest
                | Except.error _ =>
                    runToolCalls
                      { cm with messages := cm.messages ++ [Message.tool toolErrOpen tc.id] }
                      rest srest
      else
        runToolCalls cm rest searches

/-- How process_message ends: Ok(()) returned (`done`), an error
propagated by `?` out of the function (`escalated`, which aborts run()
and main()), or the iteration oracle running dry (an artifact; every
theorem supplies enough steps). -/
inductive ProcOutcome where
  | done (cm : ConversationManager)
  | escalated (cm : ConversationManager)
  | noFuel (cm : ConversationManager)
deriving DecidableEq

/-- The loop of process_message (src/main.rs lines 1167-1269): push the
reply unconditionally, then either execute its tool calls and continue,
or print and break; on a transport error pop the last message and
break. -/
def processLoop : List EnvStep → ConversationManager → ProcOutcome
  | [], cm => ProcOutcome.noFuel cm
  | step :: rest, cm =>
      match step.transport with
      | CallResult.err => ProcOutcome.done (remove_last_message cm)
      | CallResult.ok response =>
          let cm1 := { cm with messages := cm.messages ++ [response] }
          match response.tool_calls with
          | none => ProcOutcome.done cm1
          | some tcs =>
              match runToolCalls cm1 tcs step.searches with
              | ToolsResult.escalate c => ProcOutcome.escalated c
              | ToolsResult.exhausted c => ProcOutcome.noFuel c
              | ToolsResult.ok c => processLoop rest c

/-- ChatApplication::process_message (src/main.rs lines 1151-1272):
append the user turn, then run the tool-continuation loop. -/
def process_message (env : List EnvStep) (cm : ConversationManager)
    (content : String) : ProcOutcome :=
  processLoop env (add_user_message cm content)

/-- The conversation state an outcome of process_message carries. -/
def outcomeState : ProcOutcome → ConversationManager
  | ProcOutcome.done cm => cm
  | ProcOutcome.escalated cm => cm
  | ProcOutcome.noFuel cm => cm

/-- The conversation state a tool-pass result carries. -/
def toolsState : ToolsResult → ConversationManager
  | ToolsResult.ok cm => cm
  | ToolsResult.escalate cm => cm
  | ToolsResult.exhausted cm => cm

/-- The REPL loop of ChatApplication::run restricted to the send-message
branch: each pair is one user line together with the model reply its
single successful tool-free completion call returns. -/
def runSession : List (String × Message) → ConversationManager → Option ConversationManager
  | [], cm => some cm
  | (u, reply) :: rest, cm =>
      match process_message [⟨CallResult.ok reply, []⟩] cm u with
      | ProcOutcome.done cm2 => runSession rest cm2
      | _ => none

/-- Strict user/assistant alternation of a conversation log (also forces
even length). -/
def alternatingUA : List Message → Bool
  | [] => true
  | u :: a :: rest => u.role == "user" && a.role == "assistant" && alternatingUA rest
  | _ :: [] => false

/-- Claim C1, counterexample: when every attempt is rate-limited the
client performs 3 backoff sleeps — not 2 — before the fatal condition,
over 4 attempts in total. -/
theorem C1_counterexample :
    (chat_completion "m" [] none (List.replicate 4 (HttpOutcome.status429 true))).2
      = ⟨TransportResult.fatal, 3, 4⟩
    ∧ (chat_completion "m" [] none (List.replicate 4 (HttpOutcome.status429 true))).2.sleeps
      ≠ 2 := by
  exact ⟨rfl, by decide⟩

/-- Claim C1 (amended): upon rate-limit statuses the client sleeps a
fixed 2-second backoff and re-sends the identical request, up to 3
retries after the first attempt; an all-rate-limited run performs
exactly 3 intervening backoff waits over 4 attempts before the 4th
attempt's rate-limit response is fatal (a panic that terminates the
process, not merely the turn), and a run whose k < 3 leading attempts
are rate-limited sleeps exactly k times. -/
theorem C1_amended (model : String) (messages : List Message)
    (tools : Option (List ToolDefinition)) (rest : List HttpOutcome) :
    (chat_completion model messages tools
        (HttpOutcome.status429 true :: HttpOutcome.status429 true ::
         HttpOutcome.status429 true :: HttpOutcome.status429 true :: rest)).2
      = ⟨TransportResult.fatal, 3, 4⟩
    ∧ backoff_secs = 2
    ∧ (∀ k, k < 3 →
        (chat_completion model messages tools
            (List.replicate k (HttpOutcome.status429 true) ++ HttpOutcome.sendFail :: rest)).2
          = ⟨TransportResult.transportErr, k, k + 1⟩) := by
  refine ⟨rfl, rfl, ?_⟩
  intro k hk
  interval_cases k <;> rfl

/-- Claim C1 witness: two leading rate-limits then a connection failure
sleep exactly twice over three attempts. -/
theorem C1_amended_witness :
    (chat_completion "m" [] none
        (List.replicate 2 (HttpOutcome.status429 true) ++ HttpOutcome.sendFail :: [])).2
      = ⟨TransportResult.transportErr, 2, 3⟩ :=
  (C1_amended "m" [] none []).2.2 2 (by decide)

/-- Claim C3: when the first completion call of a turn fails with a
recoverable transport error, popping the just-appended user turn
restores the conversation exactly (append-then-rollback is a no-op),
and process_message returns normally, so the session continues. -/
theorem C3_rollback (cm : ConversationManager) (content : String)
    (searches : List SearchOutcome) (rest : List EnvStep) :
    process_message (⟨CallResult.err, searches⟩ :: rest) cm content
      = ProcOutcome.done cm := by
  obtain ⟨msgs, sm⟩ := cm
  simp [process_message, processLoop, add_user_message, remove_last_message]

/-- Claim C5, counterexample: a response body that fails to decode into
the expected shape is a fatal panic, not the recoverable transport-error
variant. -/
theorem C5_counterexample :
    decodeBody "[]" = none
    ∧ chatLoop 0 [HttpOutcome.ok true "[]"] = ⟨TransportResult.fatal, 0, 1⟩
    ∧ TransportResult.fatal ≠ TransportResult.transportErr := by
  exact ⟨rfl, rfl, by decide⟩

/-- Claim C5 (amended): connectivity failures while sending or while
reading the body are reported once as the recoverable transport error,
but a body that fails to decode into the expected shape is fatal: the
client panics and the process terminates instead of the loop rolling
back the pending user turn. -/
theorem C5_amended (body : String) (rest : List HttpOutcome)
    (hb : decodeBody body = none) :
    chatLoop 0 (HttpOutcome.sendFail :: rest) = ⟨TransportResult.transportErr, 0, 1⟩
    ∧ chatLoop 0 (HttpOutcome.ok false body :: rest) = ⟨TransportResult.transportErr, 0, 1⟩
    ∧ chatLoop 0 (HttpOutcome.ok true body :: rest) = ⟨TransportResult.fatal, 0, 1⟩ := by
  refine ⟨rfl, rfl, ?_⟩
  simp [chatLoop, hb]

/-- Claim C5 witness: the undecodable body "oops" is fatal. -/
theorem C5_amended_witness :
    chatLoop 0 [HttpOutcome.ok true "oops"] = ⟨TransportResult.fatal, 0, 1⟩ :=
  (C5_amended "oops" [] rfl).2.2

/-- Claim C8, counterexample: a successfully decoded response whose only
choice carries neither text nor tool calls is returned as-is, with
absent text — it is not normalized to empty text, so the caller does
observe an absent-text, absent-tools reply. -/
theorem C8_counterexample :
    decodeBody "\x7b\"choices\":[\x7b\"message\":\x7b\"role\":\"assistant\"\x7d\x7d]\x7d"
      = some ⟨[⟨⟨"assistant", none, none, none⟩⟩]⟩
    ∧ chatLoop 0
        [HttpOutcome.ok true "\x7b\"choices\":[\x7b\"message\":\x7b\"role\":\"assistant\"\x7d\x7d]\x7d"]
      = ⟨TransportResult.reply ⟨"assistant", none, none, none⟩, 0, 1⟩
    ∧ (⟨"assistant", none, none, none⟩ : Message).content ≠ some ""
    ∧ (⟨"assistant", none, none, none⟩ : Message).tool_calls = none := by
  exact ⟨rfl, rfl, by decide, rfl⟩

/-- Claim C8 (amended): the transport client normalizes only a response
with an empty choices list to an assistant reply with empty text; a
present first choice is returned unchanged, so a decoded reply with
neither text nor tool calls reaches the caller with its text still
absent. -/
theorem C8_amended :
    replyOf ⟨[]⟩ = Message.assistant ""
    ∧ (∀ (m : Message) (rest : List Choice), replyOf ⟨⟨m⟩ :: rest⟩ = m)
    ∧ decodeBody "\x7b\"choices\":[]\x7d" = some ⟨[]⟩
    ∧ replyOf ⟨[⟨⟨"assistant", none, none, none⟩⟩]⟩ = ⟨"assistant", none, none, none⟩ := by
  exact ⟨rfl, fun m rest => rfl, rfl, rfl⟩

/-- Claim C10: the wire request ignores the stored stream-mode flag —
requests built from two states differing only in that flag are
identical, the stream field is always false, chat_completion always
takes the non-stream path, and toggling stream mode changes only the
stored boolean. -/
theorem C10_stream_independence :
    (∀ (model : String) (cm : ConversationManager) (b : Bool)
        (tools : Option (List ToolDefinition)) (net : List HttpOutcome),
        (chat_completion model ({ cm with stream_mode := b }).messages tools net).1
          = (chat_completion model cm.messages tools net).1)
    ∧ (∀ (model : String) (messages : List Message)
        (tools : Option (List ToolDefinition)) (net : List HttpOutcome),
        (chat_completion model messages tools net).1.stream = false)
    ∧ (∀ (model : String) (messages : List Message)
        (tools : Option (List ToolDefinition)) (net : List HttpOutcome),
        chat_completion model messages tools net
          = chat_completion_non_stream model messages tools net)
    ∧ (∀ cm : ConversationManager,
        (toggle_stream_mode cm).messages = cm.messages
        ∧ (toggle_stream_mode cm).stream_mode = !cm.stream_mode) := by
  exact ⟨fun _ _ _ _ _ => rfl, fun _ _ _ _ => rfl, fun _ _ _ _ => rfl, fun _ => ⟨rfl, rfl⟩⟩

/-- Claim C2, counterexample: a brave_search ToolRequest whose argument
string is malformed JSON makes process_message propagate the decode
error out of the loop (the `?` on serde_json::from_str): the outcome is
the escalated error, the log keeps the unanswered assistant turn, and no
tool turn explaining the failure is appended. -/
theorem C2_counterexample :
    process_message
        [⟨CallResult.ok ⟨"assistant", none,
            some [⟨"call_1", "function", ⟨"brave_search", "not json"⟩⟩], none⟩,
          [SearchOutcome.netErr]⟩]
        ConversationManager.new "hi"
      = ProcOutcome.escalated
          ⟨[Message.user "hi",
            ⟨"assistant", none,
              some [⟨"call_1", "function", ⟨"brave_search", "not json"⟩⟩], none⟩],
            false⟩
    ∧ (List.filter (fun m => m.role == "tool")
          [Message.user "hi",
           ⟨"assistant", none,
             some [⟨"call_1", "function", ⟨"brave_search", "not json"⟩⟩], none⟩])
      = [] := by
  exact ⟨rfl, rfl⟩

/-- Claim C2 (amended): only tool-execution failures are absorbed — a
search (network) failure appends a tool turn with the fixed explanatory
text and the loop continues, and a missing required field merely
degrades to an empty query — but a ToolRequest whose arguments fail to
decode as JSON is escalated out of process_message as an error, aborting
the loop without appending a tool turn. -/
theorem C2_amended (cm : ConversationManager) (rest : List EnvStep)
    (tcBad tc : ToolCall) (replyBad reply : Message) (args : Json)
    (hbadName : tcBad.function.name = "brave_search")
    (hbadArgs : parseJson tcBad.function.arguments = none)
    (hbadReply : replyBad.tool_calls = some [tcBad])
    (hName : tc.function.name = "brave_search")
    (hArgs : parseJson tc.function.arguments = some args)
    (hReply : reply.tool_calls = some [tc]) :
    (∀ searches : List SearchOutcome,
        processLoop (⟨CallResult.ok replyBad, searches⟩ :: rest) cm
          = ProcOutcome.escalated { cm with messages := cm.messages ++ [replyBad] })
    ∧ processLoop (⟨CallResult.ok reply, [SearchOutcome.netErr]⟩ :: rest) cm
        = processLoop rest
            { cm with messages :=
                cm.messages ++ [reply, Message.tool toolErrSearch tc.id] } := by
  constructor
  · intro searches
    simp [processLoop, hbadReply, runToolCalls, hbadName, hbadArgs]
  · simp [processLoop, hReply, runToolCalls, hName, hArgs, search]

/-- Claim C2 witness: a brave_search call whose arguments decode to an
empty object (required field missing) is not escalated — the query
degrades to empty, the failed search is absorbed as the fixed tool turn
and the loop continues. -/
theorem C2_amended_witness :
    processLoop
        [⟨CallResult.ok ⟨"assistant", none,
            some [⟨"call_7", "function", ⟨"brave_search", "\x7b\x7d"⟩⟩], none⟩,
          [SearchOutcome.netErr]⟩]
        ConversationManager.new
      = processLoop []
          ⟨[⟨"assistant", none,
              some [⟨"call_7", "function", ⟨"brave_search", "\x7b\x7d"⟩⟩], none⟩,
            Message.tool toolErrSearch "call_7"], false⟩ :=
  (C2_amended ConversationManager.new []
    ⟨"call_0", "function", ⟨"brave_search", "not json"⟩⟩
    ⟨"call_7", "function", ⟨"brave_search", "\x7b\x7d"⟩⟩
    ⟨"assistant", none, some [⟨"call_0", "function", ⟨"brave_search", "not json"⟩⟩], none⟩
    ⟨"assistant", none, some [⟨"call_7", "function", ⟨"brave_search", "\x7b\x7d"⟩⟩], none⟩
    (Json.obj []) rfl rfl rfl rfl rfl rfl).2

/-- The tool-execution pass on recognized, well-formed requests appends
exactly one tool turn per request, in order, each carrying the matching
correlation id. -/
theorem runToolCalls_extends (tcs : List ToolCall) :
    ∀ (searches : List SearchOutcome) (cm : ConversationManager),
    (∀ tc ∈ tcs, tc.function.name = "brave_search" ∨ tc.function.name = "open") →
    (∀ tc ∈ tcs, (parseJson tc.function.arguments).isSome) →
    tcs.length ≤ searches.length →
    ∃ toolMsgs : List Message,
      runToolCalls cm tcs searches
        = ToolsResult.ok { cm with messages := cm.messages ++ toolMsgs }
      ∧ toolMsgs.length = tcs.length
      ∧ toolMsgs.map (fun m => m.tool_call_id) = tcs.map (fun tc => some tc.id)
      ∧ ∀ m ∈ toolMsgs, m.role = "tool" := by
  induction tcs with
  | nil =>
      intro searches cm _ _ _
      exact ⟨[], by simp [runToolCalls], rfl, rfl, by simp⟩
  | cons tc rest ih =>
      intro searches cm hnames hargs hlen
      obtain ⟨args, hargs1⟩ :=
        Option.isSome_iff_exists.mp (hargs tc (by simp))
      obtain ⟨s, srest, rfl⟩ : ∃ s srest, searches = s :: srest := by
        cases searches with
        | nil => simp at hlen
        | cons s srest => exact ⟨s, srest, rfl⟩
      have hrest_names : ∀ t ∈ rest, t.function.name = "brave_search" ∨ t.function.name = "open" :=
        fun t ht => hnames t (by simp [ht])
      have hrest_args : ∀ t ∈ rest, (parseJson t.function.arguments).isSome :=
        fun t ht => hargs t (by simp [ht])
      have hrest_len : rest.length ≤ srest.length := by simpa using hlen
      have step :
          ∀ text : String,
          ∃ toolMsgs : List Message,
            runToolCalls
              { cm with messages := cm.messages ++ [Message.tool text tc.id] } rest srest
              = ToolsResult.ok { cm with messages := cm.messages ++ Message.tool text tc.id :: toolMsgs }
            ∧ toolMsgs.length = rest.length
            ∧ toolMsgs.map (fun m => m.tool_call_id) = rest.map (fun t => some t.id)
            ∧ ∀ m ∈ toolMsgs, m.role = "tool" := by
        intro text
        obtain ⟨tms, h1, h2, h3, h4⟩ :=
          ih srest { cm with messages := cm.messages ++ [Message.tool text tc.id] }
            hrest_names hrest_args hrest_len
        refine ⟨tms, ?_, h2, h3, h4⟩
        simpa [List.append_assoc] using h1
      have finish :
          ∀ text : String,
          runToolCalls cm (tc :: rest) (s :: srest)
            = runToolCalls
                { cm with messages := cm.messages ++ [Message.tool text tc.id] } rest srest →
          ∃ toolMsgs : List Message,
            runToolCalls cm (tc :: rest) (s :: srest)
              = ToolsResult.ok { cm with messages := cm.messages ++ toolMsgs }
            ∧ toolMsgs.length = (tc :: rest).length
            ∧ toolMsgs.map (fun m => m.tool_call_id) = (tc :: rest).map (fun t => some t.id)
            ∧ ∀ m ∈ toolMsgs, m.role = "tool" := by
        intro text heq
        obtain ⟨tms, h1, h2, h3, h4⟩ := step text
        refine ⟨Message.tool text tc.id :: tms, ?_, by simp [h2], by simp [h3, Message.tool], ?_⟩
        · rw [heq, h1]
        · intro m hm
          rcases List.mem_cons.mp hm with hm | hm
          · simp [hm, Message.tool]
          · exact h4 m hm
      rcases hnames tc (by simp) with hn | hn
      · cases s with
        | response json =>
            exact finish (format_results json) (by simp [runToolCalls, hn, hargs1, search])
        | netErr =>
            exact finish toolErrSearch (by simp [runToolCalls, hn, hargs1, search])
      · by_cases hb : tc.function.name = "brave_search"
        · cases s with
          | response json =>
              exact finish (format_results json) (by simp [runToolCalls, hb, hargs1, search])
          | netErr =>
              exact finish toolErrSearch (by simp [runToolCalls, hb, hargs1, search])
        · cases s with
          | response json =>
              exact finish (format_results json) (by simp [runToolCalls, hb, hn, hargs1, search])
          | netErr =>
              exact finish toolErrOpen (by simp [runToolCalls, hb, hn, hargs1, search])

/-- Claim C4, counterexample: an assistant turn carrying one ToolRequest
with an unrecognized name ("foo") is followed by a subsequent assistant
turn with zero intervening tool turns — the per-request tool turn is
silently skipped, violating the claimed invariant. -/
theorem C4_counterexample :
    process_message
        [⟨CallResult.ok ⟨"assistant", none,
            some [⟨"call_1", "function", ⟨"foo", "\x7b\x7d"⟩⟩], none⟩, []⟩,
         ⟨CallResult.ok (Message.assistant "done"), []⟩]
        ConversationManager.new "hello"
      = ProcOutcome.done
          ⟨[Message.user "hello",
            ⟨"assistant", none, some [⟨"call_1", "function", ⟨"foo", "\x7b\x7d"⟩⟩], none⟩,
            Message.assistant "done"], false⟩
    ∧ (List.filter (fun m => m.role == "tool")
          [Message.user "hello",
           ⟨"assistant", none, some [⟨"call_1", "function", ⟨"foo", "\x7b\x7d"⟩⟩], none⟩,
           Message.assistant "done"])
      = [] := by
  exact ⟨rfl, rfl⟩

/-- Claim C4 (amended): for an assistant turn whose ToolRequests all
name a registered tool (brave_search or open) and carry decodable
arguments, the loop extends the log with exactly one tool turn per
request, in emission order, each with the matching correlation id,
before the next completion call appends any subsequent assistant turn;
requests naming an unregistered tool are skipped without a tool turn. -/
theorem C4_amended (reply : Message) (tcs : List ToolCall)
    (searches : List SearchOutcome) (rest : List EnvStep) (cm : ConversationManager)
    (hreply : reply.tool_calls = some tcs)
    (hnames : ∀ tc ∈ tcs, tc.function.name = "brave_search" ∨ tc.function.name = "open")
    (hargs : ∀ tc ∈ tcs, (parseJson tc.function.arguments).isSome)
    (hsearch : tcs.length ≤ searches.length) :
    ∃ toolMsgs : List Message,
      processLoop (⟨CallResult.ok reply, searches⟩ :: rest) cm
        = processLoop rest { cm with messages := cm.messages ++ reply :: toolMsgs }
      ∧ toolMsgs.length = tcs.length
      ∧ toolMsgs.map (fun m => m.tool_call_id) = tcs.map (fun tc => some tc.id)
      ∧ ∀ m ∈ toolMsgs, m.role = "tool" := by
  obtain ⟨tms, h1, h2, h3, h4⟩ :=
    runToolCalls_extends tcs searches
      { cm with messages := cm.messages ++ [reply] } hnames hargs hsearch
  refine ⟨tms, ?_, h2, h3, h4⟩
  simp [processLoop, hreply]
  rw [h1]
  simp [List.append_assoc]

/-- Claim C4 witness: one brave_search request with well-formed
arguments yields exactly one correlated tool turn before the loop
re-enters the model call. -/
theorem C4_amended_witness :
    ∃ toolMsgs : List Message,
      processLoop
          [⟨CallResult.ok ⟨"assistant", none,
              some [⟨"call_1", "function",
                ⟨"brave_search", "\x7b\"query\":\"weather today\"\x7d"⟩⟩], none⟩,
            [SearchOutcome.netErr]⟩]
          ConversationManager.new
        = processLoop []
            { ConversationManager.new with messages :=
                ConversationManager.new.messages ++
                  (⟨"assistant", none,
                    some [⟨"call_1", "function",
                      ⟨"brave_search", "\x7b\"query\":\"weather today\"\x7d"⟩⟩], none⟩ : Message)
                  :: toolMsgs }
      ∧ toolMsgs.length = 1
      ∧ toolMsgs.map (fun m => m.tool_call_id) = [some "call_1"]
      ∧ ∀ m ∈ toolMsgs, m.role = "tool" :=
  C4_amended
    ⟨"assistant", none,
      some [⟨"call_1", "function",
        ⟨"brave_search", "\x7b\"query\":\"weather today\"\x7d"⟩⟩], none⟩
    [⟨"call_1", "function", ⟨"brave_search", "\x7b\"query\":\"weather today\"\x7d"⟩⟩]
    [SearchOutcome.netErr] [] ConversationManager.new
    rfl (by decide) (by decide) (by decide)

/-- One turn of the REPL with a successful tool-free reply appends
exactly the user turn and the assistant turn. -/
theorem process_message_no_tools (cm : ConversationManager) (u : String) (reply : Message)
    (h : reply.tool_calls = none) :
    process_message [⟨CallResult.ok reply, []⟩] cm u
      = ProcOutcome.done { cm with messages := cm.messages ++ [Message.user u, reply] } := by
  simp [process_message, processLoop, add_user_message, h, List.append_assoc]

/-- A session of tool-free successful turns appends, per turn, a user
turn followed by the assistant reply. -/
theorem runSession_extends (pairs : List (String × Message)) :
    ∀ cm : ConversationManager,
    (∀ p ∈ pairs, p.2.tool_calls = none) →
    runSession pairs cm
      = some { cm with messages :=
          cm.messages ++ pairs.flatMap (fun p => [Message.user p.1, p.2]) } := by
  induction pairs with
  | nil =>
      intro cm _
      obtain ⟨msgs, sm⟩ := cm
      simp [runSession]
  | cons p rest ih =>
      intro cm h
      obtain ⟨u, reply⟩ := p
      have h1 : reply.tool_calls = none := h (u, reply) (by simp)
      rw [runSession, process_message_no_tools cm u reply h1]
      show runSession rest { cm with messages := cm.messages ++ [Message.user u, reply] } = _
      rw [ih _ (fun q hq => h q (by simp [hq]))]
      simp [List.append_assoc]

/-- The per-turn flattening of a session has twice as many turns as the
session has user lines. -/
theorem sessionFlat_length (pairs : List (String × Message)) :
    (pairs.flatMap (fun p => [Message.user p.1, p.2])).length = 2 * pairs.length := by
  induction pairs with
  | nil => simp
  | cons p rest ih => simp [ih]; omega

/-- The per-turn flattening of a session of assistant replies alternates
user and assistant roles. -/
theorem sessionFlat_alternating (pairs : List (String × Message))
    (h : ∀ p ∈ pairs, p.2.role = "assistant") :
    alternatingUA (pairs.flatMap (fun p => [Message.user p.1, p.2])) = true := by
  induction pairs with
  | nil => rfl
  | cons p rest ih =>
      have h1 : p.2.role = "assistant" := h p (by simp)
      have h2 : alternatingUA (rest.flatMap (fun q => [Message.user q.1, q.2])) = true :=
        ih (fun q hq => h q (by simp [hq]))
      simp only [List.flatMap_cons, List.cons_append, List.singleton_append]
      simp [alternatingUA, Message.user, Message.new, h1]
      simpa [Message.user, Message.new] using h2

/-- Claim C6: a sequence of N user messages, each answered by a
successful model reply carrying no tool requests, leaves the
conversation with exactly 2N turns alternating user and assistant. -/
theorem C6_alternation (pairs : List (String × Message))
    (h : ∀ p ∈ pairs, p.2.tool_calls = none ∧ p.2.role = "assistant") :
    ∃ final : ConversationManager,
      runSession pairs ConversationManager.new = some final
      ∧ final.messages.length = 2 * pairs.length
      ∧ alternatingUA final.messages = true := by
  refine ⟨_, runSession_extends pairs ConversationManager.new (fun p hp => (h p hp).1), ?_, ?_⟩
  · simpa [ConversationManager.new] using sessionFlat_length pairs
  · simpa [ConversationManager.new] using
      sessionFlat_alternating pairs (fun p hp => (h p hp).2)

/-- Claim C6 witness: two tool-free exchanges leave 4 turns, alternating
user and assistant. -/
theorem C6_alternation_witness :
    ∃ final : ConversationManager,
      runSession [("hi", Message.assistant "hello"), ("more", Message.assistant "sure")]
          ConversationManager.new = some final
      ∧ final.messages.length = 4
      ∧ alternatingUA final.messages = true :=
  C6_alternation
    [("hi", Message.assistant "hello"), ("more", Message.assistant "sure")]
    (by decide)

/-- Claim C7: for every provider JSON response (and any query, including
the empty one) the formatter returns a block beginning with the fixed
heading and never the empty string; an empty provider result list
renders the literal no-results line; a non-empty list renders, in
provider order, a 1-based index, title, snippet and URL per result; and
the search request always carries the query with the fixed page size of
5 results. -/
theorem C7_format (q : String) (json : Json) :
    (∃ t, format_results json = "### Brave Search Results\n\n" ++ t)
    ∧ format_results json ≠ ""
    ∧ (search q (SearchOutcome.response json)).1 = [("q", q), ("count", "5")]
    ∧ (search q (SearchOutcome.response json)).2 = Except.ok (format_results json)
    ∧ (resultsOf json = some [] →
        format_results json = "### Brave Search Results\n\nNo results found.\n")
    ∧ (∀ rs, resultsOf json = some rs → rs ≠ [] →
        format_results json
          = "### Brave Search Results\n\n"
            ++ String.join ((rs.enum.take 5).map (fun p => resultEntry p.1 p.2))) := by
  have hpre : ∃ t, format_results json = "### Brave Search Results\n\n" ++ t := by
    cases h : resultsOf json with
    | none => exact ⟨"Failed to parse search results.\n", by simp [format_results, h]⟩
    | some web =>
        by_cases he : web.isEmpty
        · exact ⟨"No results found.\n", by simp [format_results, h, he]⟩
        · exact ⟨String.join ((web.enum.take 5).map (fun p => resultEntry p.1 p.2)),
            by simp [format_results, h, he]⟩
  refine ⟨hpre, ?_, rfl, rfl, ?_, ?_⟩
  · obtain ⟨t, ht⟩ := hpre
    intro hempty
    rw [ht] at hempty
    have hlen := congrArg String.length hempty
    rw [String.length_append] at hlen
    have h26 : ("### Brave Search Results\n\n" : String).length = 26 := rfl
    have h0 : ("" : String).length = 0 := rfl
    omega
  · intro h
    simp [format_results, h]
  · intro rs h hne
    simp [format_results, h, List.isEmpty_iff, hne]

/-- Claim C7 witness: the empty provider result list renders the literal
no-results line, and a one-result response renders the indexed entry. -/
theorem C7_format_witness :
    format_results (Json.obj [("web", Json.obj [("results", Json.arr [])])])
      = "### Brave Search Results\n\nNo results found.\n"
    ∧ format_results
        (Json.obj [("web", Json.obj [("results",
            Json.arr [Json.obj [("title", Json.str "T"),
                                ("description", Json.str "D"),
                                ("url", Json.str "U")]])])])
      = "### Brave Search Results\n\n1. **T**\n   - Snippet: D\n   - URL: U\n\n" :=
  ⟨(C7_format "" (Json.obj [("web", Json.obj [("results", Json.arr [])])])).2.2.2.2.1 rfl,
   (C7_format "" (Json.obj [("web", Json.obj [("results",
        Json.arr [Json.obj [("title", Json.str "T"),
                            ("description", Json.str "D"),
                            ("url", Json.str "U")]])])])).2.2.2.2.2
      [Json.obj [("title", Json.str "T"), ("description", Json.str "D"),
                 ("url", Json.str "U")]]
      rfl (by simp)⟩

/-- The tool-execution pass only ever appends tool-role turns, whatever
the requests, search outcomes or failure mode. -/
theorem runToolCalls_roles (tcs : List ToolCall) :
    ∀ (searches : List SearchOutcome) (cm : ConversationManager),
    ∃ tail : List Message,
      (toolsState (runToolCalls cm tcs searches)).messages = cm.messages ++ tail
      ∧ ∀ m ∈ tail, m.role = "tool" := by
  induction tcs with
  | nil =>
      intro searches cm
      exact ⟨[], by simp [runToolCalls, toolsState], by simp⟩
  | cons tc rest ih =>
      intro searches cm
      have step : ∀ (text : String) (srest : List SearchOutcome),
          runToolCalls cm (tc :: rest) searches
            = runToolCalls
                { cm with messages := cm.messages ++ [Message.tool text tc.id] } rest srest →
          ∃ tail : List Message,
            (toolsState (runToolCalls cm (tc :: rest) searches)).messages
              = cm.messages ++ tail
            ∧ ∀ m ∈ tail, m.role = "tool" := by
        intro text srest heq
        obtain ⟨tail, h1, h2⟩ :=
          ih srest { cm with messages := cm.messages ++ [Message.tool text tc.id] }
        refine ⟨Message.tool text tc.id :: tail, ?_, ?_⟩
        · rw [heq, h1]; simp
        · intro m hm
          rcases List.mem_cons.mp hm with hm | hm
          · simp [hm, Message.tool]
          · exact h2 m hm
      by_cases hb : tc.function.name = "brave_search"
      · cases hp : parseJson tc.function.arguments with
        | none => exact ⟨[], by simp [runToolCalls, hb, hp, toolsState], by simp⟩
        | some args =>
            cases searches with
            | nil => exact ⟨[], by simp [runToolCalls, hb, hp, toolsState], by simp⟩
            | cons s srest =>
                cases s with
                | response j =>
                    exact step (format_results j) srest
                      (by simp [runToolCalls, hb, hp, search])
                | netErr =>
                    exact step toolErrSearch srest
                      (by simp [runToolCalls, hb, hp, search])
      · by_cases ho : tc.function.name = "open"
        · cases hp : parseJson tc.function.arguments with
          | none => exact ⟨[], by simp [runToolCalls, hb, ho, hp, toolsState], by simp⟩
          | some args =>
              cases searches with
              | nil => exact ⟨[], by simp [runToolCalls, hb, ho, hp, toolsState], by simp⟩
              | cons s srest =>
                  cases s with
                  | response j =>
                      exact step (format_results j) srest
                        (by simp [runToolCalls, hb, ho, hp, search])
                  | netErr =>
                      exact step toolErrOpen srest
                        (by simp [runToolCalls, hb, ho, hp, search])
        · obtain ⟨tail, h1, h2⟩ := ih searches cm
          exact ⟨tail, by simpa [runToolCalls, hb, ho] using h1, h2⟩

/-- Every message in the conversation after an orchestration run was
already stored, is a tool turn, or is a reply delivered by the transport
environment. -/
theorem processLoop_mem (env : List EnvStep) :
    ∀ (cm : ConversationManager) (m : Message),
    m ∈ (outcomeState (processLoop env cm)).messages →
    m ∈ cm.messages ∨ m.role = "tool"
      ∨ ∃ step ∈ env, step.transport = CallResult.ok m := by
  induction env with
  | nil =>
      intro cm m hm
      exact Or.inl (by simpa [processLoop, outcomeState] using hm)
  | cons step rest ih =>
      intro cm m hm
      obtain ⟨tr, searches⟩ := step
      cases tr with
      | err =>
          left
          have hdl : m ∈ cm.messages.dropLast := by
            simpa [processLoop, outcomeState, remove_last_message] using hm
          exact List.dropLast_subset _ hdl
      | ok response =>
          cases hrc : response.tool_calls with
          | none =>
              have hm1 : m ∈ cm.messages ++ [response] := by
                simpa [processLoop, outcomeState, hrc] using hm
              rcases List.mem_append.mp hm1 with h | h
              · exact Or.inl h
              · right; right
                refine ⟨⟨CallResult.ok response, searches⟩, by simp, ?_⟩
                simp at h
                simp [h]
          | some tcs =>
              obtain ⟨tail, htail, hroles⟩ :=
                runToolCalls_roles tcs searches
                  { cm with messages := cm.messages ++ [response] }
              have memsplit :
                  ∀ x : Message,
                  x ∈ (cm.messages ++ [response]) ++ tail →
                  x ∈ cm.messages ∨ x.role = "tool"
                    ∨ ∃ st ∈ (⟨CallResult.ok response, searches⟩ : EnvStep) :: rest,
                        st.transport = CallResult.ok x := by
                intro x hx
                rcases List.mem_append.mp hx with hx | hx
                · rcases List.mem_append.mp hx with hx | hx
                  · exact Or.inl hx
                  · right; right
                    refine ⟨⟨CallResult.ok response, searches⟩, by simp, ?_⟩
                    simp at hx
                    simp [hx]
                · exact Or.inr (Or.inl (hroles x hx))
              cases hrun : runToolCalls
                  { cm with messages := cm.messages ++ [response] } tcs searches with
              | ok c =>
                  have hm1 : m ∈ (outcomeState (processLoop rest c)).messages := by
                    simpa [processLoop, hrc, hrun] using hm
                  rw [hrun] at htail
                  simp only [toolsState] at htail
                  rcases ih c m hm1 with h | h | h
                  · rw [htail] at h
                    exact memsplit m h
                  · exact Or.inr (Or.inl h)
                  · obtain ⟨st, hst, hok⟩ := h
                    exact Or.inr (Or.inr ⟨st, by simp [hst], hok⟩)
              | escalate c =>
                  have hm1 : m ∈ c.messages := by
                    simpa [processLoop, outcomeState, hrc, hrun] using hm
                  rw [hrun] at htail
                  simp only [toolsState] at htail
                  rw [htail] at hm1
                  exact memsplit m hm1
              | exhausted c =>
                  have hm1 : m ∈ c.messages := by
                    simpa [processLoop, outcomeState, hrc, hrun] using hm
                  rw [hrun] at htail
                  simp only [toolsState] at htail
                  rw [htail] at hm1
                  exact memsplit m hm1

/-- Claim C9: on every call the transport client injects the one fixed
system turn ahead of the caller-supplied turns, re-derived from the same
constant each call; the injection leaves the stored conversation
unchanged — the orchestration loop stores only user turns, delivered
replies and tool turns, so the injected system turn is never stored. -/
theorem C9_system_injection :
    (∀ (model : String) (messages : List Message)
        (tools : Option (List ToolDefinition)) (net : List HttpOutcome),
        (chat_completion model messages tools net).1.messages
          = systemMessage :: messages)
    ∧ systemMessage.role = "system"
    ∧ (∀ (env : List EnvStep) (cm : ConversationManager) (content : String),
        systemMessage ∈ (outcomeState (process_message env cm content)).messages →
        systemMessage ∈ cm.messages
          ∨ ∃ step ∈ env, step.transport = CallResult.ok systemMessage) := by
  refine ⟨fun _ _ _ _ => rfl, rfl, ?_⟩
  intro env cm content h
  rcases processLoop_mem env (add_user_message cm content) systemMessage h with h1 | h1 | h1
  · simp only [add_user_message] at h1
    rcases List.mem_append.mp h1 with h2 | h2
    · exact Or.inl h2
    · exfalso
      simp at h2
      have hro := congrArg Message.role h2
      have hcl : ("system" : String) = "user" := hro
      exact absurd hcl (by decide)
  · exfalso
    have hcl : ("system" : String) = "tool" := h1
    exact absurd hcl (by decide)
  · exact Or.inr h1

/-- Claim C9 witness: a stored system turn can only be one that was
already in the conversation before the turn (here it was), never one the
injection added. -/
theorem C9_system_injection_witness :
    systemMessage
        ∈ ({ messages := [systemMessage], stream_mode := false } : ConversationManager).messages
    ∨ ∃ step ∈ ([] : List EnvStep), step.transport = CallResult.ok systemMessage :=
  C9_system_injection.2.2 [] ⟨[systemMessage], false⟩ "x"
    (by simp [process_message, processLoop, outcomeState, add_user_message])
